import Mathlib

/-!
Verification of the vector export back-end of papercraft-web
(`backend/src/vector_export.rs`).

Modelling conventions:
* `f32` scalars are modelled as exact rationals (`ℚ`); the `cgmath` vector and
  matrix operations used by the source are spelled out componentwise over `ℚ`.
* `u32` quantities that flow through Rust integer casts keep their wrap-around
  semantics via `% 4294967296` on `ℤ`.
* Functions whose bodies live in `paper/craft.rs` (not among the provided
  sources) are modelled from the specification and say so in their doc comment.
-/

namespace Papercraft

/-- 2D vector over exact rationals (models `cgmath::Vector2<f32>` /
`util_3d::Vector2`). -/
structure Vec2 where
  x : ℚ
  y : ℚ
deriving DecidableEq, Repr

/-- 3D vector over exact rationals (models `cgmath::Vector3<f32>`), used as a
matrix column and as a homogeneous 2D point. -/
structure Vec3 where
  x : ℚ
  y : ℚ
  z : ℚ
deriving DecidableEq, Repr

/-- Column-major 3×3 matrix (models `cgmath::Matrix3<f32>` = `util_3d::Matrix3`):
`x`, `y`, `z` are the three columns, matching `Matrix3::new(c0x, c0y, c0z, …)`. -/
structure Mat3 where
  x : Vec3
  y : Vec3
  z : Vec3
deriving DecidableEq, Repr

instance : Add Vec2 := ⟨fun a b => ⟨a.x + b.x, a.y + b.y⟩⟩
instance : Sub Vec2 := ⟨fun a b => ⟨a.x - b.x, a.y - b.y⟩⟩
instance : Neg Vec2 := ⟨fun a => ⟨-a.x, -a.y⟩⟩
instance : SMul ℚ Vec2 := ⟨fun k v => ⟨k * v.x, k * v.y⟩⟩

/-- Cross product of columns (as in `cgmath`), used for the matrix inverse. -/
def Vec3.cross (a b : Vec3) : Vec3 :=
  ⟨a.y * b.z - a.z * b.y, a.z * b.x - a.x * b.z, a.x * b.y - a.y * b.x⟩

/-- Dot product. -/
def Vec3.dot (a b : Vec3) : ℚ :=
  a.x * b.x + a.y * b.y + a.z * b.z

/-- Determinant of a column-major 3×3 matrix (expansion along the first row),
the quantity `cgmath`'s `SquareMatrix::invert` tests against zero. -/
def Mat3.det (m : Mat3) : ℚ :=
  m.x.x * (m.y.y * m.z.z - m.z.y * m.y.z)
    - m.y.x * (m.x.y * m.z.z - m.z.y * m.x.z)
    + m.z.x * (m.x.y * m.y.z - m.y.y * m.x.z)

/-- The inverse matrix (adjugate over determinant), meaningful when
`det ≠ 0`; rows of the inverse are cross products of the columns divided by
the determinant, exactly the classical formula `cgmath` computes. -/
def Mat3.invUnchecked (m : Mat3) : Mat3 :=
  let d := m.det
  let r0 := m.y.cross m.z
  let r1 := m.z.cross m.x
  let r2 := m.x.cross m.y
  ⟨⟨r0.x / d, r1.x / d, r2.x / d⟩,
   ⟨r0.y / d, r1.y / d, r2.y / d⟩,
   ⟨r0.z / d, r1.z / d, r2.z / d⟩⟩

/-- `cgmath`'s `Matrix3::invert`: `None` on a singular matrix, otherwise the
inverse. -/
def Mat3.invert (m : Mat3) : Option Mat3 :=
  if m.det = 0 then none else some m.invUnchecked

/-- Matrix–vector product (columns combined by the vector's components). -/
def Mat3.mulVec (m : Mat3) (v : Vec3) : Vec3 :=
  ⟨m.x.x * v.x + m.y.x * v.y + m.z.x * v.z,
   m.x.y * v.x + m.y.y * v.y + m.z.y * v.z,
   m.x.z * v.x + m.y.z * v.y + m.z.z * v.z⟩

/-- Matrix–matrix product. -/
def Mat3.mul (a b : Mat3) : Mat3 :=
  ⟨a.mulVec b.x, a.mulVec b.y, a.mulVec b.z⟩

/-- The 3×3 identity matrix. -/
def Mat3.id : Mat3 := ⟨⟨1, 0, 0⟩, ⟨0, 1, 0⟩, ⟨0, 0, 1⟩⟩

/-- The homogeneous matrix with columns `(v.x, v.y, 1)`, as built inline by
`calc_texture_matrix` (`vector_export.rs:224-230`) for both the UV and the
page-point triples. -/
def homMat (v0 v1 v2 : Vec2) : Mat3 :=
  ⟨⟨v0.x, v0.y, 1⟩, ⟨v1.x, v1.y, 1⟩, ⟨v2.x, v2.y, 1⟩⟩

/-- `calc_texture_matrix` (`vector_export.rs:211-233`): solve `M · U = P` as
`M = P · U⁻¹`, `None` when `U` is singular. -/
def calc_texture_matrix (u0 u1 u2 p0 p1 p2 : Vec2) : Option Mat3 :=
  (homMat u0 u1 u2).invert.map fun uInv => (homMat p0 p1 p2).mul uInv

/-- `calc_pdf_texture_matrix_triangle` (`vector_export.rs:823-845`): the PDF
solver duplicates `calc_texture_matrix` verbatim. -/
def calc_pdf_texture_matrix_triangle (u0 u1 u2 p0 p1 p2 : Vec2) : Option Mat3 :=
  (homMat u0 u1 u2).invert.map fun uInv => (homMat p0 p1 p2).mul uInv

/-- Rescaling of a UV to texture pixel space with V flip,
`Vector2::new(uvs[i].x * w, (1.0 - uvs[i].y) * h)` (`vector_export.rs:253-257`). -/
def pixelUV (v : Vec2) (texW texH : ℕ) : Vec2 :=
  ⟨v.x * (texW : ℚ), (1 - v.y) * (texH : ℚ)⟩

/-- The near-zero-diagonal nudge of `calc_svg_texture_matrix_triangle`
(`vector_export.rs:265-272`): when both `|a| < 0.0001` and `|d| < 0.0001`,
set both diagonal entries to `0.00012`, leaving every other entry as is. -/
def svgNudge (m : Mat3) : Mat3 :=
  if |m.x.x| < 1 / 10000 ∧ |m.y.y| < 1 / 10000 then
    ⟨⟨3 / 25000, m.x.y, m.x.z⟩, ⟨m.y.x, 3 / 25000, m.y.z⟩, m.z⟩
  else m

/-- `calc_svg_texture_matrix_triangle` (`vector_export.rs:238-276`): `None` on
zero texture dimensions, otherwise the solver applied to the pixel-space UVs,
followed by the diagonal nudge. -/
def calc_svg_texture_matrix_triangle (u0 u1 u2 p0 p1 p2 : Vec2)
    (texW texH : ℕ) : Option Mat3 :=
  if texW = 0 ∨ texH = 0 then none
  else
    (calc_texture_matrix (pixelUV u0 texW texH) (pixelUV u1 texW texH)
        (pixelUV u2 texW texH) p0 p1 p2).map svgNudge

/-- The textured-triangle element the SVG exporter emits for one triangle:
pattern matrix plus polygon corners; emitted only when the solver succeeds
(`vector_export.rs:550-599`, the `if let Some(tex_matrix)` block). -/
def svg_textured_triangle (u0 u1 u2 p0 p1 p2 : Vec2) (texW texH : ℕ) :
    Option (Mat3 × Vec2 × Vec2 × Vec2) :=
  (calc_svg_texture_matrix_triangle u0 u1 u2 p0 p1 p2 texW texH).map
    fun m => (m, p0, p1, p2)

/-- Points-per-millimeter factor `72 / 25.4` used by the PDF exporter. -/
def K_PT : ℚ := 360 / 127

/-- The `cm` matrix of the textured-triangle block the PDF exporter emits,
with the Y flip baked in (`vector_export.rs:1158-1195`); emitted only when
`calc_pdf_texture_matrix_triangle` succeeds. -/
def pdf_textured_triangle (u0 u1 u2 p0 p1 p2 : Vec2) (pageH : ℚ) :
    Option Mat3 :=
  (calc_pdf_texture_matrix_triangle u0 u1 u2 p0 p1 p2).map fun m =>
    ⟨⟨m.x.x * K_PT, -m.x.y * K_PT, m.x.z⟩,
     ⟨m.y.x * K_PT, -m.y.y * K_PT, m.y.z⟩,
     ⟨m.z.x * K_PT, (pageH - m.z.y) * K_PT, m.z.z⟩⟩

/-- UV corners of scenario S5, used as concrete evaluation data. -/
def uA : Vec2 := ⟨1 / 4, 1 / 4⟩

/-- Second UV corner of scenario S5. -/
def uB : Vec2 := ⟨3 / 4, 1 / 4⟩

/-- Third UV corner of scenario S5. -/
def uC : Vec2 := ⟨1 / 2, 3 / 4⟩

/-- First page point of scenario S5. -/
def pA : Vec2 := ⟨50, 100⟩

/-- Second page point of scenario S5. -/
def pB : Vec2 := ⟨80, 100⟩

/-- Third page point of scenario S5. -/
def pC : Vec2 := ⟨65, 130⟩

/-- The slice of `PaperOptions` the export paths read (full struct lives in
`paper/craft.rs`); `pages` and `page_cols` are `u32` in the source. -/
structure PaperOptions where
  page_size_w : ℚ
  page_size_h : ℚ
  pages : ℕ
  page_cols : ℕ
deriving DecidableEq, Repr

/-- The 10 mm page separator (`PAGE_SEP` in `vector_export.rs:108` and
`vector_export.rs:923`). -/
def PAGE_SEP : ℚ := 10

/-- Modelled from the spec: `PaperOptions::global_to_page` lives in
`paper/craft.rs`, which is not among the provided sources; the spec defines it
as `(row = floor(y/(H+10)), col = floor(x/(W+10)))`.  Returns `(row, col)`. -/
def global_to_page (opts : PaperOptions) (p : Vec2) : ℤ × ℤ :=
  (⌊p.y / (opts.page_size_h + PAGE_SEP)⌋, ⌊p.x / (opts.page_size_w + PAGE_SEP)⌋)

/-- Modulus of Rust `u32` arithmetic. -/
def U32_MOD : ℤ := 4294967296

/-- The owner page both exporters compute from an island's bounding-box
center: `(po.row as u32) * options.page_cols.max(1) + (po.col as u32)`
(`vector_export.rs:316-317` and `vector_export.rs:1069-1070`), with the `u32`
casts and wrap-around made explicit. -/
def owner_page_u32 (opts : PaperOptions) (center : Vec2) : ℤ :=
  let po := global_to_page opts center
  ((po.1 % U32_MOD) * (max (opts.page_cols : ℤ) 1) % U32_MOD
      + po.2 % U32_MOD) % U32_MOD

/-- The page-assignment formula as the claims state it, without integer wrap:
`floor(cy/(H+10)) · max(page_cols,1) + floor(cx/(W+10))`. -/
def owner_page_ideal (opts : PaperOptions) (center : Vec2) : ℤ :=
  (global_to_page opts center).1 * (max (opts.page_cols : ℤ) 1)
    + (global_to_page opts center).2

/-- The guard under which `write_svg_layers` renders an island's faces, folds,
flaps and perimeter on a page (`vector_export.rs:311-321`: everything for the
island is skipped unless `owner_page == page`). -/
def svg_island_on_page (opts : PaperOptions) (center : Vec2) (page : ℕ) : Bool :=
  owner_page_u32 opts center == (page : ℤ)

/-- The identical guard in `generate_pdf_page_ops`
(`vector_export.rs:1065-1073` for faces and `vector_export.rs:1250-1258` for
folds, flaps and the perimeter), applied to the options `generate_pdf` passes
in (which may have been widened). -/
def pdf_island_on_page (opts : PaperOptions) (center : Vec2) (page : ℕ) : Bool :=
  owner_page_u32 opts center == (page : ℤ)

/-- Pages of a multi-page SVG export on which an island appears:
`write_svg_multipage` calls `write_svg_layers` for every `p < pages`
(`vector_export.rs:150-162`). -/
def svg_rendered_pages (opts : PaperOptions) (center : Vec2) : List ℕ :=
  (List.range opts.pages).filter fun p => svg_island_on_page opts center p

/-- Pages of a PDF export on which an island appears: `generate_pdf` calls
`generate_pdf_page_ops` for every `p < pages` (`vector_export.rs:962-965`). -/
def pdf_rendered_pages (opts : PaperOptions) (center : Vec2) : List ℕ :=
  (List.range opts.pages).filter fun p => pdf_island_on_page opts center p

/-- Truncation toward zero, the semantics of Rust's `as i32` cast on a float. -/
def ratTrunc (q : ℚ) : ℤ := if 0 ≤ q then ⌊q⌋ else -⌊-q⌋

/-- The maximal island column index `generate_pdf` computes before widening:
`(center.x / (page_size.0 + PAGE_SEP)) as i32`, maximised over all islands,
`unwrap_or(0)` on an empty model (`vector_export.rs:924-932`). -/
def pdf_max_col (opts : PaperOptions) (centers : List Vec2) : ℤ :=
  match centers.map fun c => ratTrunc (c.x / (opts.page_size_w + PAGE_SEP)) with
  | [] => 0
  | x :: xs => xs.foldl max x

/-- The widened options `generate_pdf` uses for the whole export:
`if max_col >= options.page_cols as i32 { options.page_cols = (max_col + 1) as u32 }`
(`vector_export.rs:934-936`).  `write_svg_multipage` and `write_svg_layers`
perform no such adjustment (`vector_export.rs:302-308` computes `_page_cols`
and `_slot_width` but never uses them). -/
def pdf_effective_options (opts : PaperOptions) (centers : List Vec2) :
    PaperOptions :=
  if (opts.page_cols : ℤ) ≤ pdf_max_col opts centers then
    { opts with page_cols := (pdf_max_col opts centers + 1).toNat }
  else opts

/-- Concrete options used to evaluate the pagination claims. -/
def optsA : PaperOptions := ⟨210, 297, 4, 2⟩

/-- Concrete island bounding-box center: column 1, row 0 of the grid of
`optsA`. -/
def centerA : Vec2 := ⟨250, 100⟩

/-- Concrete options with a single configured column. -/
def optsB : PaperOptions := ⟨100, 100, 6, 1⟩

/-- Concrete center at grid column 2, row 1 — beyond the single configured
column of `optsB`. -/
def centerB : Vec2 := ⟨225, 160⟩

/-- Concrete options for the omitted-island scenario. -/
def optsC : PaperOptions := ⟨100, 100, 1, 1⟩

/-- Concrete center whose owner page (8) is beyond the single page of
`optsC`. -/
def centerC : Vec2 := ⟨500, 500⟩

/-- Flap quadrilateral as collected by `write_svg_layers`
(`vector_export.rs:486-500`): `L` is the value of `edge_vec.magnitude()`
(irrational in general, hence a parameter tied to `p0, p1` by hypothesis in
the theorems); `normalize` divides by that magnitude. -/
def svg_flap_quad (p0 p1 : Vec2) (flapWidth L : ℚ) : List Vec2 :=
  let e := p1 - p0
  let normal : Vec2 := ⟨-e.y / L, e.x / L⟩
  let w := min flapWidth (L * (2 / 5))
  let t : Vec2 := ⟨e.x / L, e.y / L⟩
  let f0 := p0 + w • normal + (L * (3 / 20)) • t
  let f1 := p1 + w • normal - (L * (3 / 20)) • t
  [p0, p1, f1, f0]

/-- Flap fill path as emitted by `generate_pdf_page_ops`
(`vector_export.rs:1366-1398`): `m p0`, `l p1`, `l f1`, `l f0`, `f`, with the
same `f0`, `f1` construction as the SVG path. -/
def pdf_flap_fill_quad (p0 p1 : Vec2) (flapWidth L : ℚ) : List Vec2 :=
  let e := p1 - p0
  let normal : Vec2 := ⟨-e.y / L, e.x / L⟩
  let w := min flapWidth (L * (2 / 5))
  let t : Vec2 := ⟨e.x / L, e.y / L⟩
  let f0 := p0 + w • normal + (L * (3 / 20)) • t
  let f1 := p1 + w • normal - (L * (3 / 20)) • t
  [p0, p1, f1, f0]

/-- The flap quadrilateral exactly as the claim states it:
`[p0, p1, p1 + w·n − 0.15·L·t, p0 + w·n + 0.15·L·t]` with
`t = (p1−p0)/L`, `n = (−(p1−p0).y, (p1−p0).x)/L`, `w = min(flap_width, 0.4·L)`. -/
def claimed_flap_quad (p0 p1 : Vec2) (flapWidth L : ℚ) : List Vec2 :=
  let t : Vec2 := (1 / L) • (p1 - p0)
  let n : Vec2 := (1 / L) • (⟨-(p1 - p0).y, (p1 - p0).x⟩ : Vec2)
  let w := min flapWidth ((2 / 5) * L)
  [p0, p1, p1 + w • n - ((3 / 20) * L) • t, p0 + w • n + ((3 / 20) * L) • t]

/-- Fold classification (`EdgeDrawKind` in `vector_export.rs:37-40`). -/
inductive EdgeDrawKind where
  | mountain
  | valley
deriving DecidableEq, Repr

/-- Fold classification from the signed fold angle: both exporters test
`angle.is_sign_negative()` (`vector_export.rs:437-442` and
`vector_export.rs:1306-1316`); over exact rationals that is `angle < 0`. -/
def fold_draw_kind (angle : ℚ) : EdgeDrawKind :=
  if angle < 0 then .valley else .mountain

/-- Dash array of the SVG fold stroke: valleys get
`stroke-dasharray="1,1"` (`vector_export.rs:660-665`), mountains none
(`vector_export.rs:648-654`). -/
def svg_fold_dasharray (angle : ℚ) : Option (ℚ × ℚ) :=
  if angle < 0 then some (1, 1) else none

/-- Dash pattern of the PDF fold stroke: valleys get `d [2 2] 0`
(`vector_export.rs:1307-1312`), mountains `d [] 0`
(`vector_export.rs:1313-1315`). -/
def pdf_fold_dash (angle : ℚ) : List ℤ :=
  if angle < 0 then [2, 2] else []

/-- Whether the SVG fold pass emits the joined edge while visiting face
`iFace`, where `fB` is the second face stored on the edge
(`vector_export.rs:406-417`: skip when `i_face > f_b` or `i_face == f_b`). -/
def svg_fold_emit (iFace fB : ℕ) : Bool :=
  if iFace > fB then false else if iFace = fB then false else true

/-- Whether the PDF fold pass emits the joined edge while visiting face
`iFace` (`vector_export.rs:1280-1288`: skip only when `i_face > f_b`). -/
def pdf_fold_emit (iFace fB : ℕ) : Bool :=
  if iFace > fB then false else true

/-- Number of SVG fold lines emitted for a joined edge with adjacent faces
`(a, Some b)`: the island traversal visits both faces, and each visit tests
against the second stored face `b`. -/
def svg_fold_emit_count (a b : ℕ) : ℕ :=
  (if svg_fold_emit a b then 1 else 0) + (if svg_fold_emit b b then 1 else 0)

/-- Number of PDF fold strokes emitted for a joined edge with adjacent faces
`(a, Some b)`. -/
def pdf_fold_emit_count (a b : ℕ) : ℕ :=
  (if pdf_fold_emit a b then 1 else 0) + (if pdf_fold_emit b b then 1 else 0)

/-- How a face is filled by the exporters. -/
inductive FaceFill where
  | paper
  | textured (texIdx : ℕ)
deriving DecidableEq, Repr

/-- Textures are modelled as `Option (width, height)`: `some` when the
texture has pixel data (`pixbuf`), `none` otherwise. -/
abbrev Textures := List (Option (ℕ × ℕ))

/-- The texture lookup of `write_svg_layers` (`vector_export.rs:350-362`):
`textures().nth(material_idx)` and keep the index only when the texture has
pixel data. -/
def svg_texture_idx (textures : Textures) (materialIdx : ℕ) : Option ℕ :=
  match textures.get? materialIdx with
  | some (some _) => some materialIdx
  | _ => none

/-- The fill `write_svg_layers` chooses for a face
(`vector_export.rs:518-613`): textured only when textures are enabled and the
lookup succeeded, otherwise a solid polygon in the paper color. -/
def svg_face_fill (textures : Textures) (materialIdx : ℕ)
    (withTextures : Bool) : FaceFill :=
  if withTextures && (svg_texture_idx textures materialIdx).isSome then
    .textured materialIdx
  else .paper

/-- The per-texture table `embed_pdf_textures` builds
(`vector_export.rs:856-911`): a real entry per texture with pixel data, a
placeholder (modelled `none`, the zero object id) otherwise. -/
def pdf_texture_entries (textures : Textures) : List (Option (ℕ × ℕ)) :=
  textures.map fun t => match t with
    | some wh => some wh
    | none => none

/-- The texture decision of `generate_pdf_page_ops`
(`vector_export.rs:1091-1098`): `texture_xobjects.get(material_idx)` filtered
to non-placeholder entries; without a texture the face stays the solid
paper-color polygon it is always given first. -/
def pdf_face_fill (textures : Textures) (materialIdx : ℕ)
    (withTextures : Bool) : FaceFill :=
  if withTextures
      && (((pdf_texture_entries textures).get? materialIdx).join).isSome then
    .textured materialIdx
  else .paper

theorem vec3_comp_ext {a b : Vec3} (hx : a.x = b.x) (hy : a.y = b.y)
    (hz : a.z = b.z) : a = b := by
  cases a; cases b; simp_all

theorem mat3_cols_ext {a b : Mat3} (hx : a.x = b.x) (hy : a.y = b.y)
    (hz : a.z = b.z) : a = b := by
  cases a; cases b; simp_all

theorem Mat3.mul_mulVec (a b : Mat3) (v : Vec3) :
    (a.mul b).mulVec v = a.mulVec (b.mulVec v) := by
  apply vec3_comp_ext <;> simp [Mat3.mul, Mat3.mulVec] <;> ring

theorem Mat3.mulVec_e0 (m : Mat3) : m.mulVec ⟨1, 0, 0⟩ = m.x := by
  apply vec3_comp_ext <;> simp [Mat3.mulVec]

theorem Mat3.mulVec_e1 (m : Mat3) : m.mulVec ⟨0, 1, 0⟩ = m.y := by
  apply vec3_comp_ext <;> simp [Mat3.mulVec]

theorem Mat3.mulVec_e2 (m : Mat3) : m.mulVec ⟨0, 0, 1⟩ = m.z := by
  apply vec3_comp_ext <;> simp [Mat3.mulVec]

theorem Mat3.invUnchecked_mulVec_x (m : Mat3) (h : m.det ≠ 0) :
    m.invUnchecked.mulVec m.x = ⟨1, 0, 0⟩ := by
  apply vec3_comp_ext <;>
    (simp only [Mat3.invUnchecked, Mat3.mulVec, Mat3.det, Vec3.cross] at * <;>
      field_simp <;> ring)

theorem Mat3.invUnchecked_mulVec_y (m : Mat3) (h : m.det ≠ 0) :
    m.invUnchecked.mulVec m.y = ⟨0, 1, 0⟩ := by
  apply vec3_comp_ext <;>
    (simp only [Mat3.invUnchecked, Mat3.mulVec, Mat3.det, Vec3.cross] at * <;>
      field_simp <;> ring)

theorem Mat3.invUnchecked_mulVec_z (m : Mat3) (h : m.det ≠ 0) :
    m.invUnchecked.mulVec m.z = ⟨0, 0, 1⟩ := by
  apply vec3_comp_ext <;>
    (simp only [Mat3.invUnchecked, Mat3.mulVec, Mat3.det, Vec3.cross] at * <;>
      field_simp <;> ring)

theorem Mat3.invUnchecked_mul_self (m : Mat3) (h : m.det ≠ 0) :
    m.invUnchecked.mul m = Mat3.id := by
  apply mat3_cols_ext
  · exact m.invUnchecked_mulVec_x h
  · exact m.invUnchecked_mulVec_y h
  · exact m.invUnchecked_mulVec_z h

theorem Mat3.invert_eq_none_iff (m : Mat3) : m.invert = none ↔ m.det = 0 := by
  unfold Mat3.invert
  split <;> simp_all

theorem Mat3.invert_eq_some_iff (m : Mat3) (M : Mat3) :
    m.invert = some M ↔ m.det ≠ 0 ∧ M = m.invUnchecked := by
  unfold Mat3.invert
  split <;> simp_all [eq_comm]

theorem calc_texture_matrix_eq_some {u0 u1 u2 p0 p1 p2 : Vec2} {M : Mat3}
    (h : calc_texture_matrix u0 u1 u2 p0 p1 p2 = some M) :
    (homMat u0 u1 u2).det ≠ 0 ∧
      M = (homMat p0 p1 p2).mul (homMat u0 u1 u2).invUnchecked := by
  unfold calc_texture_matrix at h
  rw [Option.map_eq_some'] at h
  obtain ⟨uInv, hInv, hM⟩ := h
  obtain ⟨hdet, hval⟩ := (Mat3.invert_eq_some_iff _ _).mp hInv
  exact ⟨hdet, by rw [← hM, hval]⟩

theorem calc_texture_matrix_maps {u0 u1 u2 p0 p1 p2 : Vec2} {M : Mat3}
    (h : calc_texture_matrix u0 u1 u2 p0 p1 p2 = some M) :
    M.mulVec ⟨u0.x, u0.y, 1⟩ = ⟨p0.x, p0.y, 1⟩ ∧
    M.mulVec ⟨u1.x, u1.y, 1⟩ = ⟨p1.x, p1.y, 1⟩ ∧
    M.mulVec ⟨u2.x, u2.y, 1⟩ = ⟨p2.x, p2.y, 1⟩ := by
  obtain ⟨hdet, hM⟩ := calc_texture_matrix_eq_some h
  subst hM
  refine ⟨?_, ?_, ?_⟩
  · have : (⟨u0.x, u0.y, 1⟩ : Vec3) = (homMat u0 u1 u2).x := rfl
    rw [this, Mat3.mul_mulVec, Mat3.invUnchecked_mulVec_x _ hdet, Mat3.mulVec_e0]
    rfl
  · have : (⟨u1.x, u1.y, 1⟩ : Vec3) = (homMat u0 u1 u2).y := rfl
    rw [this, Mat3.mul_mulVec, Mat3.invUnchecked_mulVec_y _ hdet, Mat3.mulVec_e1]
    rfl
  · have : (⟨u2.x, u2.y, 1⟩ : Vec3) = (homMat u0 u1 u2).z := rfl
    rw [this, Mat3.mul_mulVec, Mat3.invUnchecked_mulVec_z _ hdet, Mat3.mulVec_e2]
    rfl

theorem det_pixelUV (u0 u1 u2 : Vec2) (texW texH : ℕ) :
    (homMat (pixelUV u0 texW texH) (pixelUV u1 texW texH)
        (pixelUV u2 texW texH)).det
      = -((texW : ℚ) * (texH : ℚ)) * (homMat u0 u1 u2).det := by
  simp only [homMat, Mat3.det, pixelUV]
  ring

/-- C1: for every triangle, `calc_texture_matrix` and
`calc_pdf_texture_matrix_triangle` return `some M` exactly when the
homogeneous UV matrix `U` (columns `(uᵢ.x, uᵢ.y, 1)`) is invertible
(`det ≠ 0`, with `invUnchecked` a genuine left inverse); then `M = P·U⁻¹`
maps every homogeneous UV corner exactly to its page point (exact equality
over ℚ, hence within 10⁻² mm); on a singular `U` both solvers return `none`
and neither exporter emits a textured triangle. -/
theorem C1_texture_matrix_solver (u0 u1 u2 p0 p1 p2 : Vec2) :
    ((calc_texture_matrix u0 u1 u2 p0 p1 p2).isSome = true ↔
        (homMat u0 u1 u2).det ≠ 0)
  ∧ calc_pdf_texture_matrix_triangle u0 u1 u2 p0 p1 p2
      = calc_texture_matrix u0 u1 u2 p0 p1 p2
  ∧ (∀ M, calc_texture_matrix u0 u1 u2 p0 p1 p2 = some M →
        M = (homMat p0 p1 p2).mul (homMat u0 u1 u2).invUnchecked
      ∧ (homMat u0 u1 u2).invUnchecked.mul (homMat u0 u1 u2) = Mat3.id
      ∧ M.mulVec ⟨u0.x, u0.y, 1⟩ = ⟨p0.x, p0.y, 1⟩
      ∧ M.mulVec ⟨u1.x, u1.y, 1⟩ = ⟨p1.x, p1.y, 1⟩
      ∧ M.mulVec ⟨u2.x, u2.y, 1⟩ = ⟨p2.x, p2.y, 1⟩)
  ∧ ((homMat u0 u1 u2).det = 0 →
        calc_texture_matrix u0 u1 u2 p0 p1 p2 = none
      ∧ calc_pdf_texture_matrix_triangle u0 u1 u2 p0 p1 p2 = none
      ∧ (∀ texW texH,
          svg_textured_triangle u0 u1 u2 p0 p1 p2 texW texH = none)
      ∧ (∀ pageH, pdf_textured_triangle u0 u1 u2 p0 p1 p2 pageH = none)) := by
  refine ⟨?_, rfl, ?_, ?_⟩
  · constructor
    · intro h
      rw [Option.isSome_iff_exists] at h
      obtain ⟨M, hM⟩ := h
      exact (calc_texture_matrix_eq_some hM).1
    · intro hdet
      unfold calc_texture_matrix Mat3.invert
      rw [if_neg hdet]
      simp
  · intro M hM
    obtain ⟨hdet, hval⟩ := calc_texture_matrix_eq_some hM
    obtain ⟨h0, h1, h2⟩ := calc_texture_matrix_maps hM
    exact ⟨hval, Mat3.invUnchecked_mul_self _ hdet, h0, h1, h2⟩
  · intro hdet
    have hnone : calc_texture_matrix u0 u1 u2 p0 p1 p2 = none := by
      unfold calc_texture_matrix Mat3.invert
      rw [if_pos hdet]
      rfl
    refine ⟨hnone, hnone, ?_, ?_⟩
    · intro texW texH
      unfold svg_textured_triangle calc_svg_texture_matrix_triangle
      by_cases hz : texW = 0 ∨ texH = 0
      · rw [if_pos hz]
        rfl
      · rw [if_neg hz]
        have hpix : (homMat (pixelUV u0 texW texH) (pixelUV u1 texW texH)
            (pixelUV u2 texW texH)).det = 0 := by
          rw [det_pixelUV, hdet, mul_zero]
        unfold calc_texture_matrix Mat3.invert
        rw [if_pos hpix]
        rfl
    · intro pageH
      unfold pdf_textured_triangle
      rw [show calc_pdf_texture_matrix_triangle u0 u1 u2 p0 p1 p2
            = calc_texture_matrix u0 u1 u2 p0 p1 p2 from rfl, hnone]
      rfl

/-- Witness for C1, on the data of test scenario S5: the UV matrix of the
corners `(¼,¼), (¾,¼), (½,¾)` has determinant `¼ ≠ 0`, the solver succeeds,
and the solved matrix maps the first homogeneous UV exactly onto the first
page point `(50, 100)`. -/
theorem C1_texture_matrix_solver_witness :
    calc_texture_matrix uA uB uC pA pB pC
      = some ((homMat pA pB pC).mul (homMat uA uB uC).invUnchecked)
  ∧ ((homMat pA pB pC).mul (homMat uA uB uC).invUnchecked).mulVec
      ⟨uA.x, uA.y, 1⟩ = ⟨pA.x, pA.y, 1⟩ := by
  have hdet : (homMat uA uB uC).det ≠ 0 := by
    norm_num [homMat, Mat3.det, uA, uB, uC]
  have hs : calc_texture_matrix uA uB uC pA pB pC
      = some ((homMat pA pB pC).mul (homMat uA uB uC).invUnchecked) := by
    unfold calc_texture_matrix Mat3.invert
    rw [if_neg hdet]
    rfl
  exact ⟨hs, ((C1_texture_matrix_solver uA uB uC pA pB pC).2.2.1 _ hs).2.2.1⟩

/-- C5: a joined edge is drawn in the mountain style (solid stroke) exactly
when its signed fold angle is ≥ 0 and in the valley style (dashed stroke)
exactly when the angle is < 0, in the SVG export and in the PDF export. -/
theorem C5_mountain_valley (angle : ℚ) :
    (fold_draw_kind angle = .mountain ↔ 0 ≤ angle)
  ∧ (fold_draw_kind angle = .valley ↔ angle < 0)
  ∧ (svg_fold_dasharray angle = none ↔ 0 ≤ angle)
  ∧ (svg_fold_dasharray angle = some (1, 1) ↔ angle < 0)
  ∧ (pdf_fold_dash angle = [] ↔ 0 ≤ angle)
  ∧ (pdf_fold_dash angle = [2, 2] ↔ angle < 0) := by
  by_cases h : angle < 0 <;>
    simp_all [fold_draw_kind, svg_fold_dasharray, pdf_fold_dash, le_of_not_lt,
      not_lt.mp, not_le.mpr]

/-- Witness for C5: a fold of angle 1 is a solid mountain, a fold of angle −1
a dashed valley. -/
theorem C5_mountain_valley_witness :
    fold_draw_kind 1 = EdgeDrawKind.mountain
  ∧ svg_fold_dasharray 1 = none
  ∧ fold_draw_kind (-1) = EdgeDrawKind.valley
  ∧ pdf_fold_dash (-1) = [2, 2] :=
  ⟨(C5_mountain_valley 1).1.mpr (by norm_num),
   (C5_mountain_valley 1).2.2.1.mpr (by norm_num),
   (C5_mountain_valley (-1)).2.1.mpr (by norm_num),
   (C5_mountain_valley (-1)).2.2.2.2.2.mpr (by norm_num)⟩

/-- C6: for a texture of nonzero pixel dimensions, any matrix the SVG solver
produces is the nudge of a matrix that maps the pixel-space UVs
`(u·W, (1−v)·H)` of the three corners exactly onto the three page points;
with a zero dimension `calc_svg_texture_matrix_triangle` returns `none`. -/
theorem C6_svg_pixel_rescale (u0 u1 u2 p0 p1 p2 : Vec2) (texW texH : ℕ) :
    ((texW = 0 ∨ texH = 0) →
      calc_svg_texture_matrix_triangle u0 u1 u2 p0 p1 p2 texW texH = none)
  ∧ (∀ M, calc_svg_texture_matrix_triangle u0 u1 u2 p0 p1 p2 texW texH
        = some M →
      ∃ M', calc_texture_matrix (pixelUV u0 texW texH) (pixelUV u1 texW texH)
              (pixelUV u2 texW texH) p0 p1 p2 = some M'
        ∧ M = svgNudge M'
        ∧ M'.mulVec ⟨(pixelUV u0 texW texH).x, (pixelUV u0 texW texH).y, 1⟩
            = ⟨p0.x, p0.y, 1⟩
        ∧ M'.mulVec ⟨(pixelUV u1 texW texH).x, (pixelUV u1 texW texH).y, 1⟩
            = ⟨p1.x, p1.y, 1⟩
        ∧ M'.mulVec ⟨(pixelUV u2 texW texH).x, (pixelUV u2 texW texH).y, 1⟩
            = ⟨p2.x, p2.y, 1⟩) := by
  constructor
  · intro hz
    unfold calc_svg_texture_matrix_triangle
    rw [if_pos hz]
  · intro M hM
    unfold calc_svg_texture_matrix_triangle at hM
    by_cases hz : texW = 0 ∨ texH = 0
    · rw [if_pos hz] at hM
      exact absurd hM (by simp)
    · rw [if_neg hz, Option.map_eq_some'] at hM
      obtain ⟨M', hM', hnudge⟩ := hM
      obtain ⟨h0, h1, h2⟩ := calc_texture_matrix_maps hM'
      exact ⟨M', hM', hnudge.symm, h0, h1, h2⟩

/-- Witness for C6: with a zero-width texture the SVG solver yields `none`,
and on the S5 data with a 2×2 texture it yields a matrix that is the nudge of
an exact pixel-space solution. -/
theorem C6_svg_pixel_rescale_witness :
    calc_svg_texture_matrix_triangle uA uB uC pA pB pC 0 7 = none
  ∧ ∃ M', calc_texture_matrix (pixelUV uA 2 2) (pixelUV uB 2 2)
        (pixelUV uC 2 2) pA pB pC = some M'
      ∧ svgNudge M' = svgNudge M'
      ∧ M'.mulVec ⟨(pixelUV uA 2 2).x, (pixelUV uA 2 2).y, 1⟩
          = ⟨pA.x, pA.y, 1⟩ := by
  constructor
  · exact (C6_svg_pixel_rescale uA uB uC pA pB pC 0 7).1 (Or.inl rfl)
  · have hdet : (homMat (pixelUV uA 2 2) (pixelUV uB 2 2)
        (pixelUV uC 2 2)).det ≠ 0 := by
      norm_num [homMat, Mat3.det, pixelUV, uA, uB, uC]
    have hs : calc_svg_texture_matrix_triangle uA uB uC pA pB pC 2 2
        = some (svgNudge ((homMat pA pB pC).mul
            (homMat (pixelUV uA 2 2) (pixelUV uB 2 2)
              (pixelUV uC 2 2)).invUnchecked)) := by
      unfold calc_svg_texture_matrix_triangle calc_texture_matrix Mat3.invert
      rw [if_neg (by norm_num), if_neg hdet]
      rfl
    obtain ⟨M', hM', _, h0, _, _⟩ :=
      (C6_svg_pixel_rescale uA uB uC pA pB pC 2 2).2 _ hs
    exact ⟨M', hM', rfl, h0⟩

/-- C7: inside `calc_svg_texture_matrix_triangle` the solved matrix is
returned unchanged unless both diagonal entries satisfy `|a| < 0.0001` and
`|d| < 0.0001`; in that case exactly the two diagonal entries become
`0.00012` and `b`, `c`, `e`, `f` are untouched; the nudge never fires when at
least one diagonal entry has absolute value ≥ 0.0001. -/
theorem C7_diagonal_nudge (m : Mat3) (u0 u1 u2 p0 p1 p2 : Vec2)
    (texW texH : ℕ) :
    (¬(|m.x.x| < 1 / 10000 ∧ |m.y.y| < 1 / 10000) → svgNudge m = m)
  ∧ ((1 / 10000 ≤ |m.x.x| ∨ 1 / 10000 ≤ |m.y.y|) → svgNudge m = m)
  ∧ (|m.x.x| < 1 / 10000 → |m.y.y| < 1 / 10000 →
      (svgNudge m).x.x = 3 / 25000 ∧ (svgNudge m).y.y = 3 / 25000
    ∧ (svgNudge m).x.y = m.x.y ∧ (svgNudge m).y.x = m.y.x
    ∧ (svgNudge m).z.x = m.z.x ∧ (svgNudge m).z.y = m.z.y
    ∧ (svgNudge m).x.z = m.x.z ∧ (svgNudge m).y.z = m.y.z
    ∧ (svgNudge m).z.z = m.z.z)
  ∧ (texW ≠ 0 → texH ≠ 0 →
      calc_svg_texture_matrix_triangle u0 u1 u2 p0 p1 p2 texW texH
        = (calc_texture_matrix (pixelUV u0 texW texH) (pixelUV u1 texW texH)
            (pixelUV u2 texW texH) p0 p1 p2).map svgNudge) := by
  refine ⟨?_, ?_, ?_, ?_⟩
  · intro h
    unfold svgNudge
    rw [if_neg h]
  · intro h
    unfold svgNudge
    rcases h with h | h
    · rw [if_neg fun hc => absurd hc.1 (not_lt.mpr h)]
    · rw [if_neg fun hc => absurd hc.2 (not_lt.mpr h)]
  · intro ha hd
    unfold svgNudge
    rw [if_pos ⟨ha, hd⟩]
    exact ⟨rfl, rfl, rfl, rfl, rfl, rfl, rfl, rfl, rfl⟩
  · intro hW hH
    unfold calc_svg_texture_matrix_triangle
    rw [if_neg (by simp [hW, hH])]

/-- Witness for C7: the identity matrix has `|a| = 1 ≥ 0.0001`, so the nudge
leaves it unchanged, while an all-zero-diagonal 90°-rotation-like matrix gets
both diagonal entries bumped to `0.00012` with its off-diagonals kept. -/
theorem C7_diagonal_nudge_witness :
    svgNudge Mat3.id = Mat3.id
  ∧ (svgNudge ⟨⟨0, 1, 0⟩, ⟨-1, 0, 0⟩, ⟨5, 7, 1⟩⟩).x.x = 3 / 25000
  ∧ (svgNudge ⟨⟨0, 1, 0⟩, ⟨-1, 0, 0⟩, ⟨5, 7, 1⟩⟩).y.x = -1 := by
  refine ⟨?_, ?_, ?_⟩
  · exact (C7_diagonal_nudge Mat3.id uA uB uC pA pB pC 1 1).2.1
      (Or.inl (by norm_num [Mat3.id]))
  · exact ((C7_diagonal_nudge ⟨⟨0, 1, 0⟩, ⟨-1, 0, 0⟩, ⟨5, 7, 1⟩⟩
      uA uB uC pA pB pC 1 1).2.2.1 (by norm_num) (by norm_num)).1
  · exact ((C7_diagonal_nudge ⟨⟨0, 1, 0⟩, ⟨-1, 0, 0⟩, ⟨5, 7, 1⟩⟩
      uA uB uC pA pB pC 1 1).2.2.1 (by norm_num) (by norm_num)).2.2.2.1

theorem vec2_comp_ext {a b : Vec2} (hx : a.x = b.x) (hy : a.y = b.y) : a = b := by
  cases a; cases b; simp_all

theorem Vec2.add_def (a b : Vec2) : a + b = ⟨a.x + b.x, a.y + b.y⟩ := rfl

theorem Vec2.sub_def (a b : Vec2) : a - b = ⟨a.x - b.x, a.y - b.y⟩ := rfl

theorem Vec2.smul_def (k : ℚ) (v : Vec2) : k • v = ⟨k * v.x, k * v.y⟩ := rfl

/-- C4: on a visible flap over the cut edge `p0 → p1` of exact length `L`,
both exporters emit the flap quadrilateral
`[p0, p1, p1 + w·n − 0.15·L·t, p0 + w·n + 0.15·L·t]` in that order, with
`t = (p1−p0)/L`, `n = (−(p1−p0).y, (p1−p0).x)/L` and
`w = min(flap_width, 0.4·L)`. -/
theorem C4_flap_quadrilateral (p0 p1 : Vec2) (flapWidth L : ℚ)
    (hL : 0 < L)
    (hmag : L * L = (p1.x - p0.x) * (p1.x - p0.x)
        + (p1.y - p0.y) * (p1.y - p0.y)) :
    svg_flap_quad p0 p1 flapWidth L = claimed_flap_quad p0 p1 flapWidth L
  ∧ pdf_flap_fill_quad p0 p1 flapWidth L
      = claimed_flap_quad p0 p1 flapWidth L := by
  have h : svg_flap_quad p0 p1 flapWidth L
      = claimed_flap_quad p0 p1 flapWidth L := by
    simp only [svg_flap_quad, claimed_flap_quad, Vec2.add_def, Vec2.sub_def,
      Vec2.smul_def, mul_comm L (2 / 5), List.cons.injEq, Vec2.mk.injEq,
      and_true, true_and]
    and_intros <;> ring
  exact ⟨h, h⟩

/-- Witness for C4: the edge `(0,0) → (3,4)` has rational length 5, and both
exporters' flap quadrilaterals coincide with the claimed one there. -/
theorem C4_flap_quadrilateral_witness :
    svg_flap_quad ⟨0, 0⟩ ⟨3, 4⟩ 1 5 = claimed_flap_quad ⟨0, 0⟩ ⟨3, 4⟩ 1 5
  ∧ pdf_flap_fill_quad ⟨0, 0⟩ ⟨3, 4⟩ 1 5
      = claimed_flap_quad ⟨0, 0⟩ ⟨3, 4⟩ 1 5 :=
  C4_flap_quadrilateral ⟨0, 0⟩ ⟨3, 4⟩ 1 5 (by norm_num) (by norm_num)

/-- C8: a face whose material index points outside the texture array, or at a
texture without pixel data, is rendered by both exporters as an untextured
polygon filled with the paper color; the embedded decision functions are
total, so the missing texture never fails the export. -/
theorem C8_missing_texture_fallback (textures : Textures) (materialIdx : ℕ)
    (withTextures : Bool)
    (h : textures.get? materialIdx = none
        ∨ textures.get? materialIdx = some none) :
    svg_face_fill textures materialIdx withTextures = .paper
  ∧ pdf_face_fill textures materialIdx withTextures = .paper := by
  have hsvg : svg_texture_idx textures materialIdx = none := by
    unfold svg_texture_idx
    rcases h with h | h <;> rw [h]
  have hpdf : ((pdf_texture_entries textures).get? materialIdx).join = none := by
    unfold pdf_texture_entries
    rw [List.get?_map]
    rcases h with h | h <;> rw [h] <;> rfl
  constructor
  · unfold svg_face_fill
    rw [hsvg]
    simp
  · unfold pdf_face_fill
    rw [hpdf]
    simp

/-- Witness for C8: a one-texture model without pixel data, queried both at
the existing index 0 and at the out-of-range index 5, yields paper fills. -/
theorem C8_missing_texture_fallback_witness :
    svg_face_fill [none] 0 true = .paper
  ∧ pdf_face_fill [none] 0 true = .paper
  ∧ svg_face_fill [none] 5 true = .paper := by
  refine ⟨?_, ?_, ?_⟩
  · exact (C8_missing_texture_fallback [none] 0 true (Or.inr rfl)).1
  · exact (C8_missing_texture_fallback [none] 0 true (Or.inr rfl)).2
  · exact (C8_missing_texture_fallback [none] 5 true (Or.inl rfl)).1

/-- C9: for a joined edge with adjacent faces `(a, Some b)`, over the two
face visits the SVG pass emits the fold exactly once when `a < b` and never
when `a > b`; the PDF pass (which lacks the `i_face == f_b` skip and hence
also emits while visiting `b` itself) emits twice when `a < b` and exactly
once when `a > b`. -/
theorem C9_fold_emission_counts (a b : ℕ) :
    (a < b → svg_fold_emit_count a b = 1 ∧ pdf_fold_emit_count a b = 2)
  ∧ (b < a → svg_fold_emit_count a b = 0 ∧ pdf_fold_emit_count a b = 1)
  ∧ pdf_fold_emit b b = true
  ∧ svg_fold_emit b b = false := by
  refine ⟨fun h => ?_, fun h => ?_, ?_, ?_⟩
  · have h1 : ¬ a > b := by omega
    have h2 : ¬ a = b := by omega
    have h3 : ¬ b > b := by omega
    simp [svg_fold_emit_count, pdf_fold_emit_count, svg_fold_emit,
      pdf_fold_emit, h1, h2, h3]
  · have h1 : a > b := h
    have h3 : ¬ b > b := by omega
    simp [svg_fold_emit_count, pdf_fold_emit_count, svg_fold_emit,
      pdf_fold_emit, h1, h3]
  · unfold pdf_fold_emit
    simp
  · unfold svg_fold_emit
    simp

/-- Witness for C9: with faces `(0, 1)` the SVG export draws the fold once
and the PDF export twice; with faces `(1, 0)` the counts are 0 and 1. -/
theorem C9_fold_emission_counts_witness :
    svg_fold_emit_count 0 1 = 1 ∧ pdf_fold_emit_count 0 1 = 2
  ∧ svg_fold_emit_count 1 0 = 0 ∧ pdf_fold_emit_count 1 0 = 1 :=
  ⟨((C9_fold_emission_counts 0 1).1 (by norm_num)).1,
   ((C9_fold_emission_counts 0 1).1 (by norm_num)).2,
   ((C9_fold_emission_counts 1 0).2.1 (by norm_num)).1,
   ((C9_fold_emission_counts 1 0).2.1 (by norm_num)).2⟩

theorem owner_page_u32_eq (opts : PaperOptions) (center : Vec2) :
    owner_page_u32 opts center = owner_page_ideal opts center % U32_MOD := by
  show ((global_to_page opts center).1 % U32_MOD
      * (max (opts.page_cols : ℤ) 1) % U32_MOD
      + (global_to_page opts center).2 % U32_MOD) % U32_MOD = _
  unfold owner_page_ideal
  generalize (global_to_page opts center).1 = r
  generalize (global_to_page opts center).2 = c
  generalize (max (opts.page_cols : ℤ) 1) = k
  have h1 : r % U32_MOD * k % U32_MOD = r * k % U32_MOD := by
    conv_lhs => rw [Int.mul_emod, Int.emod_emod_of_dvd _ dvd_rfl]
    rw [← Int.mul_emod]
  rw [h1, ← Int.add_emod]

theorem owner_page_u32_nonneg (opts : PaperOptions) (center : Vec2) :
    0 ≤ owner_page_u32 opts center := by
  rw [owner_page_u32_eq]
  exact Int.emod_nonneg _ (by norm_num [U32_MOD])

theorem range_filter_beq_eq (n : ℕ) (k : ℤ) :
    ((List.range n).filter fun (p : ℕ) => k == (p : ℤ))
      = if 0 ≤ k ∧ k < (n : ℤ) then [k.toNat] else [] := by
  induction n with
  | zero =>
    rw [if_neg (by omega)]
    simp
  | succ m ih =>
    rw [List.range_succ, List.filter_append, ih]
    by_cases hk : k = (m : ℤ)
    · rw [if_neg (by omega), if_pos (by omega)]
      simp [hk]
    · have h3 : (k == (m : ℤ)) = false := by simp [hk]
      by_cases h4 : 0 ≤ k ∧ k < (m : ℤ)
      · rw [if_pos h4, if_pos (by omega)]
        simp [h3]
      · rw [if_neg h4, if_neg (by omega)]
        simp [h3]

/-- C2: for every page index `p < pages`, each exporter renders an island
(faces, folds, flaps and perimeter all sit behind the one owner-page guard)
on page `p` exactly when
`p = floor(cy/(H+10)) · max(page_cols,1) + floor(cx/(W+10))`, provided the
formula's value stays inside `±2³¹` (the `u32` casts only wrap beyond that);
for the PDF exporter `opts` are the options `generate_pdf` passes in. -/
theorem C2_page_assignment (opts : PaperOptions) (center : Vec2) (p : ℕ)
    (hp : p < opts.pages)
    (hpages : (opts.pages : ℤ) ≤ 2147483648)
    (hlo : -2147483648 < owner_page_ideal opts center)
    (hhi : owner_page_ideal opts center < 2147483648) :
    (svg_island_on_page opts center p = true
        ↔ (p : ℤ) = owner_page_ideal opts center)
  ∧ (pdf_island_on_page opts center p = true
        ↔ (p : ℤ) = owner_page_ideal opts center) := by
  have he := owner_page_u32_eq opts center
  have hiff : owner_page_ideal opts center % U32_MOD = (p : ℤ)
      ↔ (p : ℤ) = owner_page_ideal opts center := by
    unfold U32_MOD
    omega
  constructor
  · unfold svg_island_on_page
    rw [he, beq_iff_eq]
    exact hiff
  · unfold pdf_island_on_page
    rw [he, beq_iff_eq]
    exact hiff

/-- Witness for C2: with an A4-ish grid of 2 columns and 4 pages, the island
centered at `(250, 100)` (grid row 0, column 1) is rendered by both exporters
exactly on page 1. -/
theorem C2_page_assignment_witness :
    svg_island_on_page optsA centerA 1 = true
  ∧ pdf_island_on_page optsA centerA 1 = true := by
  have hrow : (global_to_page optsA centerA).1 = 0 := by
    norm_num [global_to_page, optsA, centerA, PAGE_SEP]
  have hcol : (global_to_page optsA centerA).2 = 1 := by
    norm_num [global_to_page, optsA, centerA, PAGE_SEP]
  have hideal : owner_page_ideal optsA centerA = 1 := by
    unfold owner_page_ideal
    rw [hrow, hcol]
    simp
  have h := C2_page_assignment optsA centerA 1
    (by norm_num [optsA]) (by norm_num [optsA])
    (by rw [hideal]; norm_num) (by rw [hideal]; norm_num)
  exact ⟨h.1.mpr (by rw [hideal]; norm_num),
    h.2.mpr (by rw [hideal]; norm_num)⟩

theorem foldl_max_init_le (xs : List ℤ) (x : ℤ) : x ≤ xs.foldl max x := by
  induction xs generalizing x with
  | nil => simp
  | cons y ys ih =>
    simp only [List.foldl_cons]
    exact le_trans (le_max_left x y) (ih (max x y))

theorem mem_le_foldl_max {a x : ℤ} {xs : List ℤ} (ha : a ∈ x :: xs) :
    a ≤ xs.foldl max x := by
  induction xs generalizing x with
  | nil =>
    simp only [List.mem_singleton] at ha
    simp [ha]
  | cons y ys ih =>
    simp only [List.foldl_cons]
    rcases List.mem_cons.mp ha with h | h
    · subst h
      exact le_trans (le_max_left a y) (foldl_max_init_le ys (max a y))
    · rcases List.mem_cons.mp h with h' | h'
      · subst h'
        exact le_trans (le_max_right x a) (foldl_max_init_le ys (max x a))
      · exact ih (List.mem_cons.mpr (Or.inr h'))

/-- Counterexample to C3: with one configured column and pages 100×100 mm,
the island centered at `(225, 160)` has column index 2 > 1 = `page_cols`,
yet the SVG exporter still assigns it with the unwidened column count — it
renders the island on page 3, whereas the widened options (which the PDF
exporter uses) put it on page 5 and not on page 3. -/
theorem C3_counterexample :
    (optsB.page_cols : ℤ) < pdf_max_col optsB [centerB]
  ∧ (pdf_effective_options optsB [centerB]).page_cols = 3
  ∧ svg_island_on_page optsB centerB 3 = true
  ∧ svg_island_on_page (pdf_effective_options optsB [centerB]) centerB 3
      = false
  ∧ pdf_island_on_page (pdf_effective_options optsB [centerB]) centerB 5
      = true := by
  have hmc : pdf_max_col optsB [centerB] = 2 := by
    unfold pdf_max_col
    norm_num [optsB, centerB, PAGE_SEP, ratTrunc]
  have heff : pdf_effective_options optsB [centerB]
      = ⟨100, 100, 6, 3⟩ := by
    unfold pdf_effective_options
    rw [if_pos (by rw [hmc]; norm_num [optsB])]
    rw [hmc]
    rfl
  have hrow : (global_to_page optsB centerB).1 = 1 := by
    norm_num [global_to_page, optsB, centerB, PAGE_SEP]
  have hcol : (global_to_page optsB centerB).2 = 2 := by
    norm_num [global_to_page, optsB, centerB, PAGE_SEP]
  have hrow' : (global_to_page ⟨100, 100, 6, 3⟩ centerB).1 = 1 := by
    norm_num [global_to_page, centerB, PAGE_SEP]
  have hcol' : (global_to_page ⟨100, 100, 6, 3⟩ centerB).2 = 2 := by
    norm_num [global_to_page, centerB, PAGE_SEP]
  refine ⟨by rw [hmc]; norm_num [optsB], by rw [heff], ?_, ?_, ?_⟩
  · unfold svg_island_on_page
    rw [owner_page_u32_eq]
    unfold owner_page_ideal
    rw [hrow, hcol]
    norm_num [optsB, U32_MOD]
  · rw [heff]
    unfold svg_island_on_page
    rw [owner_page_u32_eq]
    unfold owner_page_ideal
    rw [hrow', hcol']
    norm_num [U32_MOD]
  · rw [heff]
    unfold pdf_island_on_page
    rw [owner_page_u32_eq]
    unfold owner_page_ideal
    rw [hrow', hcol']
    norm_num [U32_MOD]

/-- C3 (amended): only the PDF exporter widens the column count — when the
maximal truncated column index `max_col` reaches the configured `page_cols`,
`generate_pdf` sets `page_cols` to `max_col + 1` (pages and page size
unchanged), after which every island's column index is strictly below the
effective column count, so none wraps; the SVG exporter performs no widening
and assigns pages with the configured `page_cols` (see the counterexample). -/
theorem C3_pdf_widening (opts : PaperOptions) (centers : List Vec2)
    (h : (opts.page_cols : ℤ) ≤ pdf_max_col opts centers) :
    ((pdf_effective_options opts centers).page_cols : ℤ)
        = pdf_max_col opts centers + 1
  ∧ (pdf_effective_options opts centers).page_size_w = opts.page_size_w
  ∧ (pdf_effective_options opts centers).page_size_h = opts.page_size_h
  ∧ (pdf_effective_options opts centers).pages = opts.pages
  ∧ ∀ c ∈ centers,
      ratTrunc (c.x / (opts.page_size_w + PAGE_SEP))
        < ((pdf_effective_options opts centers).page_cols : ℤ) := by
  have h0 : (0 : ℤ) ≤ pdf_max_col opts centers :=
    le_trans (Int.natCast_nonneg _) h
  have hcols : ((pdf_effective_options opts centers).page_cols : ℤ)
      = pdf_max_col opts centers + 1 := by
    unfold pdf_effective_options
    rw [if_pos h]
    simp [Int.toNat_of_nonneg (by omega : (0:ℤ) ≤ pdf_max_col opts centers + 1)]
  refine ⟨hcols, ?_, ?_, ?_, ?_⟩
  · unfold pdf_effective_options
    rw [if_pos h]
  · unfold pdf_effective_options
    rw [if_pos h]
  · unfold pdf_effective_options
    rw [if_pos h]
  · intro c hc
    have hmem : ratTrunc (c.x / (opts.page_size_w + PAGE_SEP)) ∈
        centers.map fun cc => ratTrunc (cc.x / (opts.page_size_w + PAGE_SEP)) :=
      List.mem_map_of_mem _ hc
    have hle : ratTrunc (c.x / (opts.page_size_w + PAGE_SEP))
        ≤ pdf_max_col opts centers := by
      unfold pdf_max_col
      rcases hm : centers.map
          (fun cc => ratTrunc (cc.x / (opts.page_size_w + PAGE_SEP))) with
        _ | ⟨x, xs⟩
      · rw [hm] at hmem
        simp at hmem
      · rw [hm] at hmem ⊢
        exact mem_le_foldl_max hmem
    omega

/-- Witness for C3 (amended): on the counterexample configuration the PDF
export widens the column count to `max_col + 1 = 3`, and the island's column
index 2 then lies strictly inside the widened grid. -/
theorem C3_pdf_widening_witness :
    ((pdf_effective_options optsB [centerB]).page_cols : ℤ)
        = pdf_max_col optsB [centerB] + 1
  ∧ ratTrunc (centerB.x / (optsB.page_size_w + PAGE_SEP))
        < ((pdf_effective_options optsB [centerB]).page_cols : ℤ) := by
  have h : (optsB.page_cols : ℤ) ≤ pdf_max_col optsB [centerB] := by
    unfold pdf_max_col
    norm_num [optsB, centerB, PAGE_SEP, ratTrunc]
  have hw := C3_pdf_widening optsB [centerB] h
  exact ⟨hw.1, hw.2.2.2.2 centerB (by simp)⟩

/-- C10: every island appears on at most one page of an export — the
rendered-page set of an island is exactly the single owner page when that
owner index lies in `0..pages`, and the island is omitted entirely when the
owner index is at or beyond `pages` (the owner value is never negative, so
this covers every out-of-range case). -/
theorem C10_at_most_one_page (opts : PaperOptions) (center : Vec2) :
    (svg_rendered_pages opts center).length ≤ 1
  ∧ (pdf_rendered_pages opts center).length ≤ 1
  ∧ (∀ p : ℕ, p ∈ svg_rendered_pages opts center
        ↔ p < opts.pages ∧ (p : ℤ) = owner_page_u32 opts center)
  ∧ (∀ p : ℕ, p ∈ pdf_rendered_pages opts center
        ↔ p < opts.pages ∧ (p : ℤ) = owner_page_u32 opts center)
  ∧ ((opts.pages : ℤ) ≤ owner_page_u32 opts center →
      svg_rendered_pages opts center = []
      ∧ pdf_rendered_pages opts center = []) := by
  have h0 := owner_page_u32_nonneg opts center
  have hsvg : svg_rendered_pages opts center
      = if 0 ≤ owner_page_u32 opts center
          ∧ owner_page_u32 opts center < (opts.pages : ℤ)
        then [(owner_page_u32 opts center).toNat] else [] := by
    unfold svg_rendered_pages svg_island_on_page
    exact range_filter_beq_eq opts.pages (owner_page_u32 opts center)
  have hpdf : pdf_rendered_pages opts center
      = if 0 ≤ owner_page_u32 opts center
          ∧ owner_page_u32 opts center < (opts.pages : ℤ)
        then [(owner_page_u32 opts center).toNat] else [] := by
    unfold pdf_rendered_pages pdf_island_on_page
    exact range_filter_beq_eq opts.pages (owner_page_u32 opts center)
  have hmem : ∀ p : ℕ,
      (p ∈ if 0 ≤ owner_page_u32 opts center
          ∧ owner_page_u32 opts center < (opts.pages : ℤ)
        then [(owner_page_u32 opts center).toNat] else [])
      ↔ p < opts.pages ∧ (p : ℤ) = owner_page_u32 opts center := by
    intro p
    split_ifs with hcond
    · simp only [List.mem_singleton]
      omega
    · simp only [List.not_mem_nil, false_iff]
      omega
  refine ⟨?_, ?_, ?_, ?_, ?_⟩
  · rw [hsvg]
    split_ifs <;> simp
  · rw [hpdf]
    split_ifs <;> simp
  · intro p
    rw [hsvg]
    exact hmem p
  · intro p
    rw [hpdf]
    exact hmem p
  · intro hout
    rw [hsvg, hpdf, if_neg (by omega)]
    exact ⟨rfl, rfl⟩

/-- Witness for C10: the island centered at `(500, 500)` of a one-page
100×100 mm document has owner page 8, so both exports omit it entirely. -/
theorem C10_at_most_one_page_witness :
    svg_rendered_pages optsC centerC = []
  ∧ pdf_rendered_pages optsC centerC = [] := by
  have hrow : (global_to_page optsC centerC).1 = 4 := by
    norm_num [global_to_page, optsC, centerC, PAGE_SEP]
  have hcol : (global_to_page optsC centerC).2 = 4 := by
    norm_num [global_to_page, optsC, centerC, PAGE_SEP]
  have howner : owner_page_u32 optsC centerC = 8 := by
    rw [owner_page_u32_eq]
    unfold owner_page_ideal
    rw [hrow, hcol]
    norm_num [optsC, U32_MOD]
  exact (C10_at_most_one_page optsC centerC).2.2.2.2
    (by rw [howner]; norm_num [optsC])

end Papercraft
